import Mathlib

/-!
# Sandbox monitor and amd64 bridge allocation

A shallow embedding of `virtcontainers/monitor.go` (the sandbox monitor: `newMonitor`,
`newWatcher`, `notify`, `stop`, `watchAgent`, `watchHypervisor`) and of the bridge
allocation exercised by `TestQemuAmd64Bridges` in `virtcontainers/qemu_amd64_test.go`.

Go channels are heap objects: the heap is a list of channel states and a channel value is
its index in that list.  A watcher channel is shared between the monitor (which sends and
closes) and a subscriber (which receives and, although it should not, may close).  The
watchdog goroutine is counted by the wait group; the stop channel is counted by the number
of signals buffered in it.  Operations are taken at the granularity of completed calls.
-/

namespace Virtcontainers

/-! ## Data model -/

/-- Go `error` values: a plain error, or the result of `errors.Wrapf(cause, msg)`. -/
inductive Err where
  | mk (msg : String) : Err
  | wrap (cause : Err) (msg : String) : Err
  deriving DecidableEq, Repr

/-- `errors.Wrapf(err, msg)`. -/
def Wrapf (err : Err) (msg : String) : Err := Err.wrap err msg

/-- `watcherChannelSize = 128` (monitor.go line 17). -/
def watcherChannelSize : Nat := 128

/-- `DefaultMonitorCheckInterval = 1 * time.Second`, in nanoseconds (monitor.go line 16). -/
def DefaultMonitorCheckInterval : Nat := 1000000000

/-- State of one `chan error`: buffered messages (oldest first), capacity, closed flag. -/
structure Chan where
  buf : List Err
  cap : Nat
  closed : Bool
  deriving DecidableEq, Repr

/-- `make(chan error, n)`: an open channel with an empty buffer of capacity `n`. -/
def Chan.make (n : Nat) : Chan := { buf := [], cap := n, closed := false }

/-- Calls the monitor makes on its collaborators, in the order they happen:
the agent, the hypervisor and the logger `virtLog`. -/
inductive Event where
  | markDead          -- m.sandbox.agent.markDead()
  | hypervisorCheck   -- m.sandbox.hypervisor.check()
  | agentCheck        -- m.sandbox.agent.check()
  | warnClosed        -- virtLog.Warnf("watcher closed channel: %v", x)
  | warnFull          -- virtLog...Warnf("watcher channel is full, throw notify message")
  deriving DecidableEq, Repr

/-- The `monitor` struct (monitor.go lines 20-29).  `watchers` holds channel references,
`wg` is the wait-group counter (the number of watchdog goroutines started and not yet
exited), `stopCh` the number of signals buffered in the stop channel (capacity 1).  The
`sandbox` back-reference is kept in `World` (its agent and the calls made on it); the mutex
has no field: every operation runs as one step. -/
structure monitor where
  checkInterval : Nat
  watchers : List Nat
  wg : Nat
  running : Bool
  stopCh : Nat
  deriving DecidableEq, Repr

/-- The monitor together with what it shares with the rest of the process: the channel
heap, the agent of its sandbox and the trace of collaborator calls. -/
structure World where
  m : monitor
  chans : List Chan
  agentDead : Bool
  trace : List Event
  deriving DecidableEq, Repr

/-- Capacity of `stopCh`: `make(chan bool, 1)` (monitor.go line 35). -/
def stopChSize : Nat := 1

/-- `newMonitor` (monitor.go lines 31-37): no watcher, not running, empty stop channel. -/
def newMonitor : monitor :=
  { checkInterval := DefaultMonitorCheckInterval, watchers := [], wg := 0,
    running := false, stopCh := 0 }

/-- A fresh sandbox holding a monitor built by `newMonitor`: no channel allocated yet,
agent alive, nothing called. -/
def newWorld : World :=
  { m := newMonitor, chans := [], agentDead := false, trace := [] }

/-- Modelled from the spec: the agent collaborator's `markDead()`, whose code is not in the
sources ("marks the in-guest agent dead", "side-effecting state transition").  The call is
recorded in the trace. -/
def markDead (w : World) : World :=
  { w with agentDead := true, trace := w.trace ++ [Event.markDead] }

/-- Appends one collaborator call (a health check or a `virtLog.Warnf`) to the trace. -/
def record (ev : Event) (w : World) : World :=
  { w with trace := w.trace ++ [ev] }

/-! ## newWatcher -/

/-- `monitor.newWatcher` (monitor.go lines 39-68).  Allocates a channel of capacity
`watcherChannelSize`, appends it to `watchers` and, when the monitor is not running, sets
`running` and starts the watchdog goroutine (`wg.Add(1)`).  Returns the channel and a nil
error. -/
def newWatcher (w : World) : (Nat × Option Err) × World :=
  let watcher := w.chans.length
  let w1 : World :=
    { w with chans := w.chans ++ [Chan.make watcherChannelSize],
             m := { w.m with watchers := w.m.watchers ++ [watcher] } }
  let w2 : World :=
    if !w1.m.running then
      { w1 with m := { w1.m with running := true, wg := w1.m.wg + 1 } }
    else w1
  ((watcher, none), w2)

/-! ## notify -/

/-- Outcome of `select { case c <- err: ... default: ... }` on one channel. -/
inductive SendResult where
  | sent (c : Chan) : SendResult   -- the message was buffered
  | full : SendResult              -- the default branch was taken
  | panic : SendResult             -- send on closed channel
  deriving DecidableEq, Repr

/-- Non-blocking send.  A send on a closed channel panics, also inside a `select` with a
default branch; otherwise it succeeds iff the buffer has room.  A reference outside the
heap behaves like a nil channel (never ready). -/
def trySend (c : Option Chan) (err : Err) : SendResult :=
  match c with
  | none => SendResult.full
  | some ch =>
    if ch.closed then SendResult.panic
    else if ch.buf.length < ch.cap then SendResult.sent { ch with buf := ch.buf ++ [err] }
    else SendResult.full

/-- The loop `for _, c := range m.watchers { select ... }` of `notify` (lines 88-97).  The
boolean tells whether the loop was left by a panic; then the remaining watchers are not
visited. -/
def notifyLoop (err : Err) : List Nat → World → World × Bool
  | [], w => (w, false)
  | c :: cs, w =>
    match trySend w.chans[c]? err with
    | SendResult.panic => (w, true)
    | SendResult.sent ch => notifyLoop err cs { w with chans := w.chans.set c ch }
    | SendResult.full => notifyLoop err cs (record Event.warnFull w)

/-- `monitor.notify` (monitor.go lines 70-98): `markDead` first, then the `running` guard,
then the loop under the deferred `recover`, which logs a warning when the loop panicked. -/
def notify (err : Err) (w : World) : World :=
  let w1 := markDead w
  if !w1.m.running then w1
  else
    match notifyLoop err w1.m.watchers w1 with
    | (w2, true) => record Event.warnClosed w2
    | (w2, false) => w2

/-! ## stop -/

/-- `m.stopCh <- true` (line 111).  The send returns at once when the buffer has room.
When the buffer is full the send waits for a watchdog goroutine to receive the buffered
signal (that goroutine then exits, `wg.Done()`); with no goroutine it blocks forever. -/
def sendStop (w : World) : Option World :=
  if w.m.stopCh < stopChSize then some { w with m := { w.m with stopCh := w.m.stopCh + 1 } }
  else if 0 < w.m.wg then some { w with m := { w.m with wg := w.m.wg - 1 } }
  else none

/-- The loop `for _, c := range m.watchers { close(c) }` of `stop` (lines 125-127).
`close` of a closed (or nil) channel panics and the remaining watchers are not visited. -/
def closeLoop : List Nat → World → World × Bool
  | [], w => (w, false)
  | c :: cs, w =>
    match w.chans[c]? with
    | none => (w, true)
    | some ch =>
      if ch.closed then (w, true)
      else closeLoop cs { w with chans := w.chans.set c { ch with closed := true } }

/-- What `m.wg.Wait()` waits for: every live watchdog goroutine receives one signal from
the stop channel and exits (lines 55-58).  Arguments: live goroutines, buffered signals.
Returns the signals left, or `none` when a goroutine is left with no signal to receive
(the wait never returns). -/
def drain : Nat → Nat → Option Nat
  | 0, s => some s
  | _ + 1, 0 => none
  | t + 1, s + 1 => drain t s

/-- `defer m.wg.Wait()` (line 102). -/
def wgWait (w : World) : Option World :=
  match drain w.m.wg w.m.stopCh with
  | none => none
  | some s => some { w with m := { w.m with wg := 0, stopCh := s } }

/-- The part of `stop` that follows the stop signal (lines 112-127): the close loop under
the deferred `recover`, which logs a warning after a panic, then the deferred reset of
`watchers` and `running`. -/
def stopBody (w : World) : World :=
  let r := closeLoop w.m.watchers w
  let w2 := if r.2 then record Event.warnClosed r.1 else r.1
  { w2 with m := { w2.m with watchers := [], running := false } }

/-- `monitor.stop` (monitor.go lines 100-128).  `none` means the call never returns.  The
guard on `running`, the stop signal, the body, and last (deferred first, so run last and
outside the lock) `wg.Wait()`. -/
def stop (w : World) : Option World :=
  if !w.m.running then wgWait w
  else
    match sendStop w with
    | none => none
    | some w1 => wgWait (stopBody w1)

/-! ## The watchdog tick -/

/-- `monitor.watchHypervisor` (lines 138-144); `res` is what `hypervisor.check()` returns
(`none` is a nil error).  The error it returns is dropped by its only caller, the tick. -/
def watchHypervisor (res : Option Err) (w : World) : World :=
  let w1 := record Event.hypervisorCheck w
  match res with
  | some err => notify (Wrapf err "failed to ping hypervisor process") w1
  | none => w1

/-- `monitor.watchAgent` (lines 130-136); `res` is what `agent.check()` returns. -/
def watchAgent (res : Option Err) (w : World) : World :=
  let w1 := record Event.agentCheck w
  match res with
  | some err => notify (Wrapf err "failed to ping agent") w1
  | none => w1

/-- One `case <-tick.C:` iteration of the watchdog goroutine (lines 59-61):
`m.watchHypervisor()` then `m.watchAgent()`; the loop then goes back to `select`. -/
def tick (hres ares : Option Err) (w : World) : World :=
  watchAgent ares (watchHypervisor hres w)

/-! ## Subscribers -/

/-- A subscriber closes the channel it was given (it is not supposed to). -/
def subscriberClose (c : Nat) (w : World) : World :=
  match w.chans[c]? with
  | some ch => if ch.closed then w else { w with chans := w.chans.set c { ch with closed := true } }
  | none => w

/-- A subscriber receives the oldest buffered message of its channel, if any. -/
def subscriberRecv (c : Nat) (w : World) : World :=
  match w.chans[c]? with
  | some ch => { w with chans := w.chans.set c { ch with buf := ch.buf.tail } }
  | none => w

/-- States reachable from a fresh monitor by completed `newWatcher`, `notify`, `stop` and
watchdog-tick operations, interleaved with subscriber receives and closes.  A tick needs a
live watchdog goroutine. -/
inductive Reachable : World → Prop where
  | init : Reachable newWorld
  | newWatcher {w : World} : Reachable w → Reachable (newWatcher w).2
  | notify {w : World} (err : Err) : Reachable w → Reachable (notify err w)
  | stop {w w1 : World} : Reachable w → stop w = some w1 → Reachable w1
  | tick {w : World} (hres ares : Option Err) : Reachable w → 0 < w.m.wg →
      Reachable (tick hres ares w)
  | subscriberClose {w : World} (c : Nat) : Reachable w → Reachable (subscriberClose c w)
  | subscriberRecv {w : World} (c : Nat) : Reachable w → Reachable (subscriberRecv c w)

/-! ## Bridges of the amd64 builder -/

/-- Modelled from the spec: the machine type names of the amd64 builder, which the test
uses as `QemuPC`, `QemuQ35` and `QemuMicrovm` and whose declarations are not in the sources
(legacy PC, modern Q35, minimal "microvm"). -/
def QemuPC : String := "pc"

/-- Modelled from the spec: the Q35 machine type name (see `QemuPC`). -/
def QemuQ35 : String := "q35"

/-- Modelled from the spec: the microvm machine type name (see `QemuPC`). -/
def QemuMicrovm : String := "microvm"

/-- Modelled from the spec: the bridge type, "one variant of {PCI}"; the package `types` is
not in the sources.  The test prints `types.PCI` with `%s`. -/
inductive BridgeType where
  | PCI : BridgeType
  deriving DecidableEq, Repr

/-- Modelled from the spec: the text of a bridge type, as `%s` prints it in the id
`pci-bridge-<index>`. -/
def BridgeType.text : BridgeType → String
  | BridgeType.PCI => "pci"

/-- Modelled from the spec: a bridge descriptor, with the fields the test reads (`Type`,
here `bridgeType`, `ID`, `Devices`).  `Devices` maps a guest address to a device; `none` is
the nil map, `some []` the empty one. -/
structure Bridge where
  bridgeType : BridgeType
  ID : String
  Devices : Option (List (Nat × String))
  deriving DecidableEq, Repr

/-- Modelled from the spec: the amd64 builder, reduced to its machine type and its bridge
registry; the type `qemuAmd64` is declared outside the sources. -/
structure qemuAmd64 where
  machineType : String
  Bridges : List Bridge
  deriving DecidableEq, Repr

/-- Modelled from the spec: `newQemuArch`, whose code is not in the sources: a builder for
the configured machine type with an empty bridge registry. -/
def newQemuArch (HypervisorMachineType : String) : qemuAmd64 :=
  { machineType := HypervisorMachineType, Bridges := [] }

/-- `newTestQemu` (qemu_amd64_test.go lines 25-28): `newQemuArch(qemuConfig(machineType))`. -/
def newTestQemu (machineType : String) : qemuAmd64 := newQemuArch machineType

/-- Modelled from the spec: the bridging capability of a machine type: PC and Q35 support
bridging, microvm and any other string do not. -/
def supportsBridging (machineType : String) : Bool :=
  machineType == QemuPC || machineType == QemuQ35

/-- `fmt.Sprintf("%s-bridge-%d", bt, i)`, the id the test expects (lines 56 and 68). -/
def bridgeID (bt : BridgeType) (i : Nat) : String :=
  bt.text ++ "-bridge-" ++ toString i

/-- Modelled from the spec: `bridges(n)`, whose code is not in the sources: "(re)allocates
exactly n PCI bridge descriptors with deterministically generated ids
(`pci-bridge-<index>`), each with an empty device map, for machine types that support
bridging; for machine types without bridging support [...] this is a no-op and the bridge
registry remains empty". -/
def bridges (number : Nat) (q : qemuAmd64) : qemuAmd64 :=
  if supportsBridging q.machineType then
    { q with Bridges := (List.range number).map (fun i =>
        { bridgeType := BridgeType.PCI, ID := bridgeID BridgeType.PCI i, Devices := some [] }) }
  else q

/-- Modelled from the spec: `getBridges()`, "returns the current registry (nil/empty when
unsupported)". -/
def getBridges (q : qemuAmd64) : List Bridge := q.Bridges

/-- Value of a decimal digit character. -/
def digitValue (c : Char) : Nat := c.toNat - 48

/-- Reads a list of decimal digits, most significant first, onto an accumulator. -/
def readDecimal : Nat → List Char → Nat
  | acc, [] => acc
  | acc, c :: cs => readDecimal (10 * acc + digitValue c) cs

/-! ## Well-formed states -/

/-- What a successful non-blocking send makes of a channel with room, and what a dropped
send leaves of a full one. -/
def deliver (err : Err) (ch : Chan) : Chan :=
  if ch.buf.length < ch.cap then { ch with buf := ch.buf ++ [err] } else ch

/-- The buffer of the channel behind reference `c` is full (a send on it is dropped). -/
def isFull (w : World) (c : Nat) : Bool :=
  match w.chans[c]? with
  | some ch => !decide (ch.buf.length < ch.cap)
  | none => true

/-- The channel behind reference `c` exists and is open. -/
def isOpen (w : World) (c : Nat) : Prop :=
  ∃ ch, w.chans[c]? = some ch ∧ ch.closed = false

/-- The channel behind reference `c` exists and is closed. -/
def isClosed (w : World) (c : Nat) : Prop :=
  ∃ ch, w.chans[c]? = some ch ∧ ch.closed = true

/-- Invariant of the reachable states: every registered watcher is an allocated channel,
no channel is registered twice, every channel has capacity `watcherChannelSize` and holds
no more than that, one watchdog goroutine is alive exactly when `running` is set, no stop
signal is buffered, and a monitor that is not running has no watcher. -/
structure WF (w : World) : Prop where
  valid : ∀ c ∈ w.m.watchers, c < w.chans.length
  nodup : w.m.watchers.Nodup
  caps : ∀ ch ∈ w.chans, ch.cap = watcherChannelSize ∧ ch.buf.length ≤ ch.cap
  tasks : w.m.wg = if w.m.running then 1 else 0
  nosig : w.m.stopCh = 0
  idle : w.m.running = false → w.m.watchers = []

/-- Channel property kept by every channel operation of the model. -/
def ChanOk (ch : Chan) : Prop :=
  ch.cap = watcherChannelSize ∧ ch.buf.length ≤ ch.cap

/-- The state a completed `stop` leaves behind on a running monitor. -/
def stopped (w : World) : World :=
  { stopBody { w with m := { w.m with stopCh := 1 } } with
    m := { w.m with watchers := [], running := false, wg := 0, stopCh := 0 } }

/-! ## Concrete states -/

/-- A monitor after its first `newWatcher`: running, one open empty watcher (channel 0). -/
def oneWatcher : World := (newWatcher newWorld).2

/-- A running monitor with two open empty watchers (channels 0 and 1). -/
def twoWatchers : World := (newWatcher oneWatcher).2

/-- Two watchers registered, and the subscriber of the first one has closed its channel. -/
def closedFirst : World := subscriberClose 0 twoWatchers

/-- A running monitor whose only watcher holds 127 undelivered messages: one free slot. -/
def nearlyFull : World := Nat.iterate (notify (Err.mk "old")) 127 oneWatcher

/-- The log warnings among the traced events. -/
def isWarning (ev : Event) : Bool :=
  match ev with
  | Event.warnClosed => true
  | Event.warnFull => true
  | _ => false

/-- The calls on the agent and the hypervisor in a trace, log warnings left out. -/
def calls (t : List Event) : List Event := t.filter (fun ev => !isWarning ev)

/-- The errors one tick notifies, in order: the wrapped hypervisor failure, then the
wrapped agent failure. -/
def tickErrors (hres ares : Option Err) : List Err :=
  (hres.map (fun e => Wrapf e "failed to ping hypervisor process")).toList ++
  (ares.map (fun e => Wrapf e "failed to ping agent")).toList

/-- What a health check result leads to: a failure is notified, wrapped with `msg`; a
success is not notified. -/
def onFailure (res : Option Err) (msg : String) (w : World) : World :=
  match res with
  | some e => notify (Wrapf e msg) w
  | none => w

/-! ## Loop lemmas -/

theorem chanOk_set {l : List Chan} {i : Nat} {a : Chan}
    (hl : ∀ ch ∈ l, ChanOk ch) (ha : ChanOk a) : ∀ ch ∈ l.set i a, ChanOk ch := by
  intro ch hch
  rcases List.mem_or_eq_of_mem_set hch with h | h
  · exact hl ch h
  · exact h ▸ ha

theorem notifyLoop_cons_sent {err : Err} {c : Nat} {cs : List Nat} {w : World} {ch : Chan}
    (hc : w.chans[c]? = some ch) (hcl : ch.closed = false) (hlen : ch.buf.length < ch.cap) :
    notifyLoop err (c :: cs) w =
      notifyLoop err cs { w with chans := w.chans.set c { ch with buf := ch.buf ++ [err] } } := by
  rw [notifyLoop, hc]
  simp only [trySend, hcl, hlen, if_true, if_false, Bool.false_eq_true]

theorem notifyLoop_cons_full {err : Err} {c : Nat} {cs : List Nat} {w : World} {ch : Chan}
    (hc : w.chans[c]? = some ch) (hcl : ch.closed = false) (hlen : ¬ ch.buf.length < ch.cap) :
    notifyLoop err (c :: cs) w = notifyLoop err cs (record Event.warnFull w) := by
  rw [notifyLoop, hc]
  simp only [trySend, hcl, hlen, if_false, Bool.false_eq_true]

theorem notifyLoop_cons_none {err : Err} {c : Nat} {cs : List Nat} {w : World}
    (hc : w.chans[c]? = none) :
    notifyLoop err (c :: cs) w = notifyLoop err cs (record Event.warnFull w) := by
  rw [notifyLoop, hc]
  simp only [trySend]

theorem notifyLoop_cons_closed {err : Err} {c : Nat} {cs : List Nat} {w : World} {ch : Chan}
    (hc : w.chans[c]? = some ch) (hcl : ch.closed = true) :
    notifyLoop err (c :: cs) w = (w, true) := by
  rw [notifyLoop, hc]
  simp only [trySend, hcl, if_true]

theorem closeLoop_cons_open {c : Nat} {cs : List Nat} {w : World} {ch : Chan}
    (hc : w.chans[c]? = some ch) (hcl : ch.closed = false) :
    closeLoop (c :: cs) w =
      closeLoop cs { w with chans := w.chans.set c { ch with closed := true } } := by
  rw [closeLoop, hc]
  simp only [hcl, if_false, Bool.false_eq_true]

theorem closeLoop_cons_closed {c : Nat} {cs : List Nat} {w : World} {ch : Chan}
    (hc : w.chans[c]? = some ch) (hcl : ch.closed = true) :
    closeLoop (c :: cs) w = (w, true) := by
  rw [closeLoop, hc]
  simp only [hcl, if_true]

theorem closeLoop_cons_none {c : Nat} {cs : List Nat} {w : World}
    (hc : w.chans[c]? = none) : closeLoop (c :: cs) w = (w, true) := by
  rw [closeLoop, hc]

theorem notifyLoop_frame (err : Err) : ∀ (cs : List Nat) (w : World),
    (notifyLoop err cs w).1.m = w.m ∧ (notifyLoop err cs w).1.agentDead = w.agentDead ∧
    (notifyLoop err cs w).1.chans.length = w.chans.length ∧
    ((∀ ch ∈ w.chans, ChanOk ch) → ∀ ch ∈ (notifyLoop err cs w).1.chans, ChanOk ch) := by
  intro cs
  induction cs with
  | nil => intro w; simp [notifyLoop]
  | cons c cs ih =>
    intro w
    cases hc : w.chans[c]? with
    | none =>
      rw [notifyLoop_cons_none hc]
      exact ih (record Event.warnFull w)
    | some ch =>
      cases hcl : ch.closed with
      | true => rw [notifyLoop_cons_closed hc hcl]; simp
      | false =>
        by_cases hlen : ch.buf.length < ch.cap
        · rw [notifyLoop_cons_sent hc hcl hlen]
          have h := ih { w with chans := w.chans.set c { ch with buf := ch.buf ++ [err] } }
          refine ⟨h.1, h.2.1, ?_, ?_⟩
          · simpa using h.2.2.1
          · intro hok
            apply h.2.2.2
            apply chanOk_set hok
            have hch : ChanOk ch := hok ch (List.getElem?_mem hc)
            refine ⟨hch.1, ?_⟩
            simp only [List.length_append, List.length_singleton]
            omega
        · rw [notifyLoop_cons_full hc hcl hlen]
          exact ih (record Event.warnFull w)

theorem closeLoop_frame : ∀ (cs : List Nat) (w : World),
    (closeLoop cs w).1.m = w.m ∧ (closeLoop cs w).1.agentDead = w.agentDead ∧
    (closeLoop cs w).1.trace = w.trace ∧
    (closeLoop cs w).1.chans.length = w.chans.length ∧
    ((∀ ch ∈ w.chans, ChanOk ch) → ∀ ch ∈ (closeLoop cs w).1.chans, ChanOk ch) := by
  intro cs
  induction cs with
  | nil => intro w; simp [closeLoop]
  | cons c cs ih =>
    intro w
    cases hc : w.chans[c]? with
    | none => rw [closeLoop_cons_none hc]; simp
    | some ch =>
      cases hcl : ch.closed with
      | true => rw [closeLoop_cons_closed hc hcl]; simp
      | false =>
        rw [closeLoop_cons_open hc hcl]
        have h := ih { w with chans := w.chans.set c { ch with closed := true } }
        refine ⟨h.1, h.2.1, h.2.2.1, ?_, ?_⟩
        · simpa using h.2.2.2.1
        · intro hok
          apply h.2.2.2.2
          apply chanOk_set hok
          exact hok ch (List.getElem?_mem hc)

/-- On distinct, open watchers the notify loop does not panic, delivers to each of them
and to no other channel, and logs one warning per full watcher. -/
theorem notifyLoop_open (err : Err) : ∀ (cs : List Nat) (w : World), cs.Nodup →
    (∀ c ∈ cs, isOpen w c) →
    (notifyLoop err cs w).2 = false ∧
    (∀ i, (notifyLoop err cs w).1.chans[i]? =
      if i ∈ cs then (w.chans[i]?).map (deliver err) else w.chans[i]?) ∧
    (notifyLoop err cs w).1.trace =
      w.trace ++ List.replicate (cs.countP (isFull w)) Event.warnFull := by
  intro cs
  induction cs with
  | nil => intro w _ _; simp [notifyLoop]
  | cons c cs ih =>
    intro w hnd hopen
    obtain ⟨ch, hc, hcl⟩ := hopen c (List.mem_cons_self _ _)
    have hnotin : c ∉ cs := (List.nodup_cons.mp hnd).1
    have hnd1 : cs.Nodup := (List.nodup_cons.mp hnd).2
    have hlt : c < w.chans.length := (List.getElem?_eq_some.mp hc).1
    by_cases hlen : ch.buf.length < ch.cap
    · rw [notifyLoop_cons_sent hc hcl hlen]
      have hget : ∀ i, i ≠ c →
          (w.chans.set c { ch with buf := ch.buf ++ [err] })[i]? = w.chans[i]? := by
        intro i hi
        exact List.getElem?_set_ne (Ne.symm hi)
      have hopen1 : ∀ c1 ∈ cs, isOpen
          { w with chans := w.chans.set c { ch with buf := ch.buf ++ [err] } } c1 := by
        intro c1 hc1
        obtain ⟨ch1, h1, h2⟩ := hopen c1 (List.mem_cons_of_mem _ hc1)
        have hne : c1 ≠ c := fun h => hnotin (h ▸ hc1)
        exact ⟨ch1, by simpa [hget c1 hne] using h1, h2⟩
      obtain ⟨ih1, ih2, ih3⟩ :=
        ih { w with chans := w.chans.set c { ch with buf := ch.buf ++ [err] } } hnd1 hopen1
      refine ⟨ih1, ?_, ?_⟩
      · intro i
        rw [ih2 i]
        by_cases hic : i = c
        · subst hic
          simp [hnotin, hc, deliver, hlen, List.getElem?_set_self hlt]
        · have : (i ∈ c :: cs) ↔ i ∈ cs := by simp [hic]
          simp only [this, hget i hic]
      · rw [ih3]
        have hcount : cs.countP (isFull
            { w with chans := w.chans.set c { ch with buf := ch.buf ++ [err] } }) =
            cs.countP (isFull w) := by
          apply List.countP_congr
          intro c1 hc1
          have hne : c1 ≠ c := fun h => hnotin (h ▸ hc1)
          simp [isFull, hget c1 hne]
        have hfull : isFull w c = false := by simp [isFull, hc, hlen]
        rw [hcount, List.countP_cons, hfull]
        simp
    · rw [notifyLoop_cons_full hc hcl hlen]
      have hopen1 : ∀ c1 ∈ cs, isOpen (record Event.warnFull w) c1 := fun c1 hc1 =>
        hopen c1 (List.mem_cons_of_mem _ hc1)
      obtain ⟨ih1, ih2, ih3⟩ := ih (record Event.warnFull w) hnd1 hopen1
      refine ⟨ih1, ?_, ?_⟩
      · intro i
        rw [ih2 i]
        by_cases hic : i = c
        · subst hic
          simp [hnotin, hc, deliver, hlen, record]
        · have : (i ∈ c :: cs) ↔ i ∈ cs := by simp [hic]
          simp only [this, record]
      · rw [ih3]
        have hcount : cs.countP (isFull (record Event.warnFull w)) = cs.countP (isFull w) := rfl
        have hfull : isFull w c = true := by simp [isFull, hc, hlen]
        rw [hcount, List.countP_cons, hfull]
        simp [record, List.replicate_succ]

/-- On distinct, open watchers the close loop does not panic, closes each of them and
touches no other channel. -/
theorem closeLoop_open : ∀ (cs : List Nat) (w : World), cs.Nodup →
    (∀ c ∈ cs, isOpen w c) →
    (closeLoop cs w).2 = false ∧
    (∀ i, (closeLoop cs w).1.chans[i]? =
      if i ∈ cs then (w.chans[i]?).map (fun ch => { ch with closed := true })
      else w.chans[i]?) := by
  intro cs
  induction cs with
  | nil => intro w _ _; simp [closeLoop]
  | cons c cs ih =>
    intro w hnd hopen
    obtain ⟨ch, hc, hcl⟩ := hopen c (List.mem_cons_self _ _)
    have hnotin : c ∉ cs := (List.nodup_cons.mp hnd).1
    have hnd1 : cs.Nodup := (List.nodup_cons.mp hnd).2
    have hlt : c < w.chans.length := (List.getElem?_eq_some.mp hc).1
    rw [closeLoop_cons_open hc hcl]
    have hget : ∀ i, i ≠ c →
        (w.chans.set c { ch with closed := true })[i]? = w.chans[i]? := by
      intro i hi
      exact List.getElem?_set_ne (Ne.symm hi)
    have hopen1 : ∀ c1 ∈ cs, isOpen
        { w with chans := w.chans.set c { ch with closed := true } } c1 := by
      intro c1 hc1
      obtain ⟨ch1, h1, h2⟩ := hopen c1 (List.mem_cons_of_mem _ hc1)
      have hne : c1 ≠ c := fun h => hnotin (h ▸ hc1)
      exact ⟨ch1, by simpa [hget c1 hne] using h1, h2⟩
    obtain ⟨ih1, ih2⟩ :=
      ih { w with chans := w.chans.set c { ch with closed := true } } hnd1 hopen1
    refine ⟨ih1, ?_⟩
    intro i
    rw [ih2 i]
    by_cases hic : i = c
    · subst hic
      simp [hnotin, hc, List.getElem?_set_self hlt]
    · have : (i ∈ c :: cs) ↔ i ∈ cs := by simp [hic]
      simp only [this, hget i hic]

/-! ## The invariant holds in every reachable state -/

theorem WF_newWorld : WF newWorld := by
  refine ⟨?_, ?_, ?_, ?_, ?_, ?_⟩ <;> simp [newWorld, newMonitor]

theorem WF_newWatcher {w : World} (h : WF w) : WF (newWatcher w).2 := by
  have hv := h.valid
  have hnd := h.nodup
  have hc := h.caps
  have ht := h.tasks
  have hs := h.nosig
  have hnew : w.chans.length ∉ w.m.watchers := fun hmem => Nat.lt_irrefl _ (hv _ hmem)
  have hok : ChanOk (Chan.make watcherChannelSize) := by
    simp [ChanOk, Chan.make]
  cases hrun : w.m.running with
  | true =>
    refine ⟨?_, ?_, ?_, ?_, ?_, ?_⟩
    · intro c hcm
      simp only [newWatcher, hrun, Bool.not_true, Bool.false_eq_true, if_false,
        List.mem_append, List.mem_singleton, List.length_append, List.length_singleton] at hcm ⊢
      rcases hcm with hcm | hcm
      · have := hv c hcm; omega
      · omega
    · simp only [newWatcher, hrun, Bool.not_true, Bool.false_eq_true, if_false]
      exact List.Nodup.append hnd (List.nodup_singleton _) (by simpa using hnew)
    · intro ch hch
      simp only [newWatcher, hrun, Bool.not_true, Bool.false_eq_true, if_false,
        List.mem_append, List.mem_singleton] at hch
      rcases hch with hch | hch
      · exact hc ch hch
      · exact hch ▸ hok
    · simpa [newWatcher, hrun] using ht
    · simpa [newWatcher, hrun] using hs
    · simp [newWatcher, hrun]
  | false =>
    refine ⟨?_, ?_, ?_, ?_, ?_, ?_⟩
    · intro c hcm
      simp only [newWatcher, hrun, Bool.not_false, if_true,
        List.mem_append, List.mem_singleton, List.length_append, List.length_singleton] at hcm ⊢
      rcases hcm with hcm | hcm
      · have := hv c hcm; omega
      · omega
    · simp only [newWatcher, hrun, Bool.not_false, if_true]
      exact List.Nodup.append hnd (List.nodup_singleton _) (by simpa using hnew)
    · intro ch hch
      simp only [newWatcher, hrun, Bool.not_false, if_true,
        List.mem_append, List.mem_singleton] at hch
      rcases hch with hch | hch
      · exact hc ch hch
      · exact hch ▸ hok
    · simp [newWatcher, hrun] at ht ⊢
      exact ht
    · simpa [newWatcher, hrun] using hs
    · simp [newWatcher, hrun]

/-- `notify` leaves the monitor struct alone and keeps the heap well-formed. -/
theorem notify_frame (err : Err) (w : World) :
    (notify err w).m = w.m ∧ (notify err w).chans.length = w.chans.length ∧
    (notify err w).agentDead = true ∧
    ((∀ ch ∈ w.chans, ChanOk ch) → ∀ ch ∈ (notify err w).chans, ChanOk ch) := by
  obtain ⟨h1, h2, h3, h4⟩ := notifyLoop_frame err (markDead w).m.watchers (markDead w)
  unfold notify
  cases hrun : w.m.running with
  | false => simp [markDead, hrun]
  | true =>
    have hm : (markDead w).m.running = true := hrun
    simp only [hm, Bool.not_true, Bool.false_eq_true, if_false]
    rcases hres : notifyLoop err (markDead w).m.watchers (markDead w) with ⟨w2, b⟩
    rw [hres] at h1 h2 h3 h4
    cases b <;> simp only [record] <;> exact ⟨h1, h3, h2, h4⟩

theorem WF_notify {w : World} (err : Err) (h : WF w) : WF (notify err w) := by
  obtain ⟨h1, h2, _, h4⟩ := notify_frame err w
  refine ⟨?_, ?_, ?_, ?_, ?_, ?_⟩
  · rw [h1, h2]; exact h.valid
  · rw [h1]; exact h.nodup
  · exact h4 h.caps
  · rw [h1]; exact h.tasks
  · rw [h1]; exact h.nosig
  · rw [h1]; exact h.idle

theorem WF_record {w : World} (ev : Event) (h : WF w) : WF (record ev w) :=
  ⟨h.valid, h.nodup, h.caps, h.tasks, h.nosig, h.idle⟩

theorem WF_tick {w : World} (hres ares : Option Err) (h : WF w) : WF (tick hres ares w) := by
  unfold tick watchAgent watchHypervisor
  cases hres <;> cases ares <;>
    simp only <;>
    first
      | exact WF_notify _ (WF_record _ (WF_notify _ (WF_record _ h)))
      | exact WF_notify _ (WF_record _ (WF_record _ h))
      | exact WF_record _ (WF_notify _ (WF_record _ h))
      | exact WF_record _ (WF_record _ h)

theorem WF_subscriberClose {w : World} (c : Nat) (h : WF w) : WF (subscriberClose c w) := by
  unfold subscriberClose
  cases hc : w.chans[c]? with
  | none => exact h
  | some ch =>
    by_cases hcl : ch.closed = true
    · simp only [hcl, if_true]; exact h
    · simp only [if_neg hcl]
      refine ⟨?_, h.nodup, ?_, h.tasks, h.nosig, h.idle⟩
      · simpa using h.valid
      · exact chanOk_set h.caps (h.caps ch (List.getElem?_mem hc))

theorem WF_subscriberRecv {w : World} (c : Nat) (h : WF w) : WF (subscriberRecv c w) := by
  unfold subscriberRecv
  cases hc : w.chans[c]? with
  | none => exact h
  | some ch =>
    refine ⟨?_, h.nodup, ?_, h.tasks, h.nosig, h.idle⟩
    · simpa using h.valid
    · apply chanOk_set h.caps
      have hch := h.caps ch (List.getElem?_mem hc)
      refine ⟨hch.1, ?_⟩
      have := hch.2
      simp only [List.length_tail]
      omega

theorem stopBody_frame (w : World) :
    (stopBody w).m = { w.m with watchers := [], running := false } ∧
    (stopBody w).agentDead = w.agentDead ∧
    (stopBody w).chans.length = w.chans.length ∧
    ((∀ ch ∈ w.chans, ChanOk ch) → ∀ ch ∈ (stopBody w).chans, ChanOk ch) := by
  obtain ⟨h1, h2, _, h4, h5⟩ := closeLoop_frame w.m.watchers w
  unfold stopBody
  rcases hres : closeLoop w.m.watchers w with ⟨w2, b⟩
  rw [hres] at h1 h2 h4 h5
  simp only at h1 h2 h4 h5
  cases b
  · simp only [Bool.false_eq_true, if_false]
    exact ⟨by rw [h1], h2, h4, h5⟩
  · simp only [if_true, record]
    exact ⟨by rw [h1], h2, h4, h5⟩

theorem stopBody_of_no_panic {w : World} (h : (closeLoop w.m.watchers w).2 = false) :
    stopBody w = { (closeLoop w.m.watchers w).1 with
      m := { (closeLoop w.m.watchers w).1.m with watchers := [], running := false } } := by
  unfold stopBody
  simp only [h, Bool.false_eq_true, if_false]

theorem stop_not_running {w : World} (h : WF w) (hrun : w.m.running = false) :
    stop w = some w := by
  have ht := h.tasks
  have hs := h.nosig
  rw [hrun] at ht
  simp only [Bool.false_eq_true, if_false] at ht
  simp only [stop, hrun, Bool.not_false, if_true, wgWait, ht, hs, drain]
  cases w with
  | mk m chans agentDead trace =>
    cases m
    simp_all

theorem wgWait_one {w : World} (h1 : w.m.wg = 1) (h2 : w.m.stopCh = 1) :
    wgWait w = some { w with m := { w.m with wg := 0, stopCh := 0 } } := by
  simp [wgWait, h1, h2, drain]

theorem stop_running {w : World} (h : WF w) (hrun : w.m.running = true) :
    stop w = some (stopped w) := by
  have ht := h.tasks
  have hs := h.nosig
  rw [hrun] at ht
  simp only [if_true] at ht
  have hsend : sendStop w = some { w with m := { w.m with stopCh := 1 } } := by
    simp [sendStop, hs, stopChSize]
  have hm := (stopBody_frame { w with m := { w.m with stopCh := 1 } }).1
  have hguard : ¬ ((!w.m.running) = true) := by simp [hrun]
  unfold stop
  rw [if_neg hguard, hsend]
  show wgWait (stopBody { w with m := { w.m with stopCh := 1 } }) = _
  rw [wgWait_one (by rw [hm]; exact ht) (by rw [hm]), hm]
  rfl

theorem WF_stopped {w : World} (h : WF w) : WF (stopped w) := by
  have hok := (stopBody_frame { w with m := { w.m with stopCh := 1 } }).2.2.2 h.caps
  refine ⟨?_, ?_, hok, ?_, ?_, ?_⟩ <;> simp [stopped]

theorem WF_stop {w w1 : World} (h : WF w) (hstop : stop w = some w1) : WF w1 := by
  cases hrun : w.m.running with
  | false =>
    rw [stop_not_running h hrun] at hstop
    exact Option.some.inj hstop ▸ h
  | true =>
    rw [stop_running h hrun] at hstop
    exact Option.some.inj hstop ▸ WF_stopped h

theorem Reachable.wf {w : World} (h : Reachable w) : WF w := by
  induction h with
  | init => exact WF_newWorld
  | newWatcher _ ih => exact WF_newWatcher ih
  | notify err _ ih => exact WF_notify err ih
  | stop _ hstop ih => exact WF_stop ih hstop
  | tick hres ares _ _ ih => exact WF_tick hres ares ih
  | subscriberClose c _ ih => exact WF_subscriberClose c ih
  | subscriberRecv c _ ih => exact WF_subscriberRecv c ih

/-- A monitor that is not running has no registered watcher: the watcher list holds
exactly the channels `newWatcher` returned since the monitor was last started. -/
theorem watchers_nil_of_not_running {w : World} (h : Reachable w)
    (hrun : w.m.running = false) : w.m.watchers = [] :=
  h.wf.idle hrun

/-- On a running monitor whose watchers are distinct and open, `notify` is `markDead`
followed by a complete pass of the loop, with no panic to recover from. -/
theorem notify_open {w : World} (err : Err) (hrun : w.m.running = true)
    (hnd : w.m.watchers.Nodup) (hopen : ∀ c ∈ w.m.watchers, isOpen w c) :
    (∀ i, (notify err w).chans[i]? =
      if i ∈ w.m.watchers then (w.chans[i]?).map (deliver err) else w.chans[i]?) ∧
    (notify err w).trace = w.trace ++
      Event.markDead :: List.replicate (w.m.watchers.countP (isFull w)) Event.warnFull := by
  have hopen1 : ∀ c ∈ (markDead w).m.watchers, isOpen (markDead w) c := hopen
  obtain ⟨h1, h2, h3⟩ := notifyLoop_open err (markDead w).m.watchers (markDead w) hnd hopen1
  have hguard : ¬ ((!(markDead w).m.running) = true) := by
    have : (markDead w).m.running = true := hrun
    simp [this]
  unfold notify
  simp only [if_neg hguard]
  rcases hres : notifyLoop err (markDead w).m.watchers (markDead w) with ⟨w2, b⟩
  rw [hres] at h1 h2 h3
  simp only at h1 h2 h3
  subst h1
  simp only
  refine ⟨h2, ?_⟩
  rw [h3]
  have hcount : (markDead w).m.watchers.countP (isFull (markDead w)) =
      w.m.watchers.countP (isFull w) := rfl
  rw [hcount]
  simp [markDead]

theorem notifyLoop_trace (err : Err) : ∀ (cs : List Nat) (w : World),
    ∃ k, (notifyLoop err cs w).1.trace = w.trace ++ List.replicate k Event.warnFull := by
  intro cs
  induction cs with
  | nil => intro w; exact ⟨0, by simp [notifyLoop]⟩
  | cons c cs ih =>
    intro w
    cases hc : w.chans[c]? with
    | none =>
      rw [notifyLoop_cons_none hc]
      obtain ⟨k, hk⟩ := ih (record Event.warnFull w)
      exact ⟨k + 1, by rw [hk]; simp [record, List.replicate_succ]⟩
    | some ch =>
      cases hcl : ch.closed with
      | true => rw [notifyLoop_cons_closed hc hcl]; exact ⟨0, by simp⟩
      | false =>
        by_cases hlen : ch.buf.length < ch.cap
        · rw [notifyLoop_cons_sent hc hcl hlen]
          exact ih _
        · rw [notifyLoop_cons_full hc hcl hlen]
          obtain ⟨k, hk⟩ := ih (record Event.warnFull w)
          exact ⟨k + 1, by rw [hk]; simp [record, List.replicate_succ]⟩

theorem calls_replicate_warnFull (k : Nat) : calls (List.replicate k Event.warnFull) = [] := by
  induction k with
  | zero => rfl
  | succ k ih => simp [calls, List.replicate_succ, isWarning]

theorem calls_append (t1 t2 : List Event) : calls (t1 ++ t2) = calls t1 ++ calls t2 := by
  simp [calls]

/-- Every `notify` calls `markDead` once, first, and otherwise only logs warnings. -/
theorem notify_trace (err : Err) (w : World) :
    ∃ ws, (notify err w).trace = w.trace ++ Event.markDead :: ws ∧ calls ws = [] := by
  unfold notify
  cases hrun : w.m.running with
  | false =>
    have hm : (markDead w).m.running = false := hrun
    exact ⟨[], by simp [hm, hrun, markDead], rfl⟩
  | true =>
    have hm : (markDead w).m.running = true := hrun
    obtain ⟨k, hk⟩ := notifyLoop_trace err (markDead w).m.watchers (markDead w)
    simp only [hm, Bool.not_true, Bool.false_eq_true, if_false]
    rcases hres : notifyLoop err (markDead w).m.watchers (markDead w) with ⟨w2, b⟩
    rw [hres] at hk
    simp only at hk
    cases b
    · exact ⟨List.replicate k Event.warnFull, by simp [hk, markDead],
        calls_replicate_warnFull k⟩
    · refine ⟨List.replicate k Event.warnFull ++ [Event.warnClosed],
        by simp [record, hk, markDead], ?_⟩
      rw [calls_append, calls_replicate_warnFull]
      rfl

/-- One `notify` on a well-formed running monitor whose watchers are open: each watcher
buffer grows by the error if it has room; the watchers stay open. -/
theorem notify_bufs {w : World} (err : Err) (hwf : WF w) (hrun : w.m.running = true)
    (hopen : ∀ c ∈ w.m.watchers, isOpen w c) :
    (∀ c ∈ w.m.watchers, isOpen (notify err w) c) ∧
    ∀ c ∈ w.m.watchers, ∀ ch, w.chans[c]? = some ch →
      ∃ ch1, (notify err w).chans[c]? = some ch1 ∧
        ch1.buf = ch.buf ++ [err].take (128 - ch.buf.length) := by
  obtain ⟨h1, _⟩ := notify_open err hrun hwf.nodup hopen
  have hd : ∀ c ∈ w.m.watchers, ∀ ch, w.chans[c]? = some ch →
      (notify err w).chans[c]? = some (deliver err ch) := by
    intro c hc ch hch
    rw [h1 c, if_pos hc, hch]; rfl
  constructor
  · intro c hc
    obtain ⟨ch, hch, hcl⟩ := hopen c hc
    refine ⟨deliver err ch, hd c hc ch hch, ?_⟩
    unfold deliver; split <;> exact hcl
  · intro c hc ch hch
    refine ⟨deliver err ch, hd c hc ch hch, ?_⟩
    have hok := hwf.caps ch (List.getElem?_mem hch)
    have hcap : ch.cap = 128 := hok.1
    unfold deliver
    rw [hcap]
    by_cases hlt : ch.buf.length < 128
    · obtain ⟨k, hk⟩ : ∃ k, 128 - ch.buf.length = k + 1 := ⟨127 - ch.buf.length, by omega⟩
      rw [if_pos hlt, hk]
      simp
    · have h0 : 128 - ch.buf.length = 0 := by omega
      rw [if_neg hlt, h0]
      simp

theorem take_two_slots (b : List Err) (x y : Err) :
    (b ++ [x].take (128 - b.length)) ++
      [y].take (128 - (b ++ [x].take (128 - b.length)).length) =
    b ++ [x, y].take (128 - b.length) := by
  rcases Nat.lt_or_ge b.length 127 with h | h
  · obtain ⟨k, hk⟩ : ∃ k, 128 - b.length = k + 2 := ⟨126 - b.length, by omega⟩
    have hk1 : 128 - (b.length + 1) = k + 1 := by omega
    simp [hk, hk1]
  · rcases Nat.eq_or_lt_of_le h with h1 | h1
    · have hk : 128 - b.length = 1 := by omega
      have hk1 : 128 - (b.length + 1) = 0 := by omega
      simp [hk, hk1]
    · have hk : 128 - b.length = 0 := by omega
      simp [hk]

/-- The channel buffers after one tick on a well-formed running monitor whose watchers are
open: each buffer receives the notified errors in order, as far as it has room. -/
theorem tick_bufs {w : World} (hres ares : Option Err) (hwf : WF w)
    (hrun : w.m.running = true) (hopen : ∀ c ∈ w.m.watchers, isOpen w c) :
    ∀ c ∈ w.m.watchers, ∀ ch, w.chans[c]? = some ch →
      ∃ ch1, (tick hres ares w).chans[c]? = some ch1 ∧
        ch1.buf = ch.buf ++ (tickErrors hres ares).take (128 - ch.buf.length) := by
  intro c hc ch hch
  have hwf1 : WF (record Event.hypervisorCheck w) := WF_record _ hwf
  cases hres with
  | none =>
    cases ares with
    | none => exact ⟨ch, hch, by simp [tickErrors]⟩
    | some a =>
      have hwf2 : WF (record Event.agentCheck (record Event.hypervisorCheck w)) :=
        WF_record _ hwf1
      obtain ⟨_, hb⟩ := notify_bufs (Wrapf a "failed to ping agent") hwf2 hrun hopen
      exact hb c hc ch hch
  | some h =>
    obtain ⟨ho, hb⟩ :=
      notify_bufs (Wrapf h "failed to ping hypervisor process") hwf1 hrun hopen
    obtain ⟨ch1, hch1, hbuf1⟩ := hb c hc ch hch
    cases ares with
    | none => exact ⟨ch1, hch1, hbuf1⟩
    | some a =>
      have hm := (notify_frame (Wrapf h "failed to ping hypervisor process")
        (record Event.hypervisorCheck w)).1
      have hwf2 : WF (record Event.agentCheck
          (notify (Wrapf h "failed to ping hypervisor process")
            (record Event.hypervisorCheck w))) := WF_record _ (WF_notify _ hwf1)
      have hw2 : (record Event.agentCheck
          (notify (Wrapf h "failed to ping hypervisor process")
            (record Event.hypervisorCheck w))).m = w.m := hm
      have hrun2 := hrun
      rw [← hw2] at hrun2
      have hopen2 : ∀ c ∈ (record Event.agentCheck
          (notify (Wrapf h "failed to ping hypervisor process")
            (record Event.hypervisorCheck w))).m.watchers,
          isOpen (record Event.agentCheck
            (notify (Wrapf h "failed to ping hypervisor process")
              (record Event.hypervisorCheck w))) c := by
        intro c1 hc1
        rw [hw2] at hc1
        exact ho c1 hc1
      obtain ⟨_, hb2⟩ := notify_bufs (Wrapf a "failed to ping agent") hwf2 hrun2 hopen2
      obtain ⟨ch2, hch2, hbuf2⟩ := hb2 c (by rw [hw2]; exact hc) ch1 hch1
      refine ⟨ch2, hch2, ?_⟩
      rw [hbuf2, hbuf1]
      exact take_two_slots ch.buf _ _

theorem iterate_notify_reachable (err : Err) {w : World} (h : Reachable w) :
    ∀ n : Nat, Reachable (Nat.iterate (notify err) n w) := by
  intro n
  induction n generalizing w with
  | zero => exact h
  | succ n ih => exact ih (Reachable.notify err h)

/-- The watchers of `twoWatchers` are open. -/
theorem twoWatchers_open : ∀ c ∈ twoWatchers.m.watchers, isOpen twoWatchers c := by
  intro c hc
  have hc2 : c = 0 ∨ c = 1 := by
    simpa [twoWatchers, oneWatcher, newWatcher, newWorld, newMonitor] using hc
  rcases hc2 with h | h <;> subst h
  · exact ⟨Chan.make watcherChannelSize, rfl, rfl⟩
  · exact ⟨Chan.make watcherChannelSize, rfl, rfl⟩

/-! ## Claims about the monitor -/

/-- C1: on a running monitor whose registered watcher channels are all open, `notify err`
returns (no panic is recovered, only the agent call and one warning per full watcher are
traced) and, for each registered watcher: a buffer holding fewer than 128 messages becomes
the old buffer followed by `err`, otherwise (it then holds exactly 128, a buffer never holds
more) it is left unchanged; the channel stays open.  Channels that are not registered are untouched,
and the monitor struct (watcher list, running flag) is unchanged. -/
theorem C1_notify_delivers_or_drops (w : World) (err : Err) (hr : Reachable w)
    (hrun : w.m.running = true) (hopen : ∀ c ∈ w.m.watchers, isOpen w c) :
    (notify err w).m = w.m ∧
    (∀ c ∈ w.m.watchers, ∃ ch ch1, w.chans[c]? = some ch ∧
      (notify err w).chans[c]? = some ch1 ∧ ch1.closed = false ∧ ch1.cap = ch.cap ∧
      ch.buf.length ≤ 128 ∧
      ch1.buf = if ch.buf.length < 128 then ch.buf ++ [err] else ch.buf) ∧
    (∀ c, c ∉ w.m.watchers → (notify err w).chans[c]? = w.chans[c]?) ∧
    (notify err w).trace = w.trace ++
      Event.markDead :: List.replicate (w.m.watchers.countP (isFull w)) Event.warnFull := by
  have hwf := hr.wf
  obtain ⟨h1, h2⟩ := notify_open err hrun hwf.nodup hopen
  refine ⟨(notify_frame err w).1, ?_, ?_, h2⟩
  · intro c hc
    obtain ⟨ch, hch, hcl⟩ := hopen c hc
    have hok := hwf.caps ch (List.getElem?_mem hch)
    have hcap : ch.cap = 128 := hok.1
    have hle : ch.buf.length ≤ 128 := hcap ▸ hok.2
    refine ⟨ch, deliver err ch, hch, ?_, ?_, ?_, hle, ?_⟩
    · rw [h1 c, if_pos hc, hch]; rfl
    · unfold deliver; split <;> exact hcl
    · unfold deliver; split <;> rfl
    · unfold deliver
      rw [hcap]
      split <;> rfl
  · intro c hc
    rw [h1 c, if_neg hc]

/-- Witness of C1 on a monitor with two open watchers. -/
theorem C1_notify_delivers_or_drops_witness :
    (notify (Err.mk "vm gone") twoWatchers).m = twoWatchers.m ∧
    (∀ c ∈ twoWatchers.m.watchers, ∃ ch ch1, twoWatchers.chans[c]? = some ch ∧
      (notify (Err.mk "vm gone") twoWatchers).chans[c]? = some ch1 ∧ ch1.closed = false ∧
      ch1.cap = ch.cap ∧ ch.buf.length ≤ 128 ∧
      ch1.buf = if ch.buf.length < 128 then ch.buf ++ [Err.mk "vm gone"] else ch.buf) ∧
    (∀ c, c ∉ twoWatchers.m.watchers →
      (notify (Err.mk "vm gone") twoWatchers).chans[c]? = twoWatchers.chans[c]?) ∧
    (notify (Err.mk "vm gone") twoWatchers).trace = twoWatchers.trace ++
      Event.markDead ::
        List.replicate (twoWatchers.m.watchers.countP (isFull twoWatchers)) Event.warnFull :=
  C1_notify_delivers_or_drops twoWatchers (Err.mk "vm gone")
    (Reachable.newWatcher (Reachable.newWatcher Reachable.init)) rfl
    twoWatchers_open

/-- C2: on a running monitor whose registered watcher channels are all open, `stop`
completes; every registered channel (those returned by `newWatcher` since the monitor was
started, each listed once) was open and is now closed with its buffer as it was, closed by
the single `close` the loop runs for it: no close hit a closed channel, so nothing was
recovered or logged.  The watcher list is empty and `running` is false.  (By
`watchers_nil_of_not_running` the list starts empty at every start of the monitor.) -/
theorem C2_stop_closes_every_watcher_once (w : World) (hr : Reachable w)
    (hrun : w.m.running = true) (hopen : ∀ c ∈ w.m.watchers, isOpen w c) :
    ∃ w1, stop w = some w1 ∧
      (∀ c ∈ w.m.watchers, ∃ ch, w.chans[c]? = some ch ∧ ch.closed = false ∧
        w1.chans[c]? = some { ch with closed := true } ∧ w.m.watchers.count c = 1) ∧
      w1.trace = w.trace ∧
      w1.m.watchers = [] ∧ w1.m.running = false := by
  have hwf := hr.wf
  refine ⟨stopped w, stop_running hwf hrun, ?_⟩
  have hopen1 : ∀ c ∈ w.m.watchers, isOpen { w with m := { w.m with stopCh := 1 } } c := hopen
  obtain ⟨h1, h2⟩ :=
    closeLoop_open w.m.watchers { w with m := { w.m with stopCh := 1 } } hwf.nodup hopen1
  have h3 := (closeLoop_frame w.m.watchers { w with m := { w.m with stopCh := 1 } }).2.2.1
  have hbody := stopBody_of_no_panic (w := { w with m := { w.m with stopCh := 1 } }) h1
  have htrace : (stopped w).trace = w.trace := by
    show (stopBody { w with m := { w.m with stopCh := 1 } }).trace = w.trace
    rw [hbody]; exact h3
  have hchans : ∀ i, (stopped w).chans[i]? =
      if i ∈ w.m.watchers then (w.chans[i]?).map (fun ch => { ch with closed := true })
      else w.chans[i]? := by
    intro i
    show (stopBody { w with m := { w.m with stopCh := 1 } }).chans[i]? = _
    rw [hbody]; exact h2 i
  refine ⟨?_, htrace, rfl, rfl⟩
  intro c hc
  obtain ⟨ch, hch, hcl⟩ := hopen c hc
  refine ⟨ch, hch, hcl, ?_, List.count_eq_one_of_mem hwf.nodup hc⟩
  rw [hchans c, if_pos hc, hch]
  rfl

/-- Witness of C2 on a monitor with two open watchers. -/
theorem C2_stop_closes_every_watcher_once_witness :
    ∃ w1, stop twoWatchers = some w1 ∧
      (∀ c ∈ twoWatchers.m.watchers, ∃ ch, twoWatchers.chans[c]? = some ch ∧
        ch.closed = false ∧ w1.chans[c]? = some { ch with closed := true } ∧
        twoWatchers.m.watchers.count c = 1) ∧
      w1.trace = twoWatchers.trace ∧
      w1.m.watchers = [] ∧ w1.m.running = false :=
  C2_stop_closes_every_watcher_once twoWatchers
    (Reachable.newWatcher (Reachable.newWatcher Reachable.init)) rfl twoWatchers_open

/-- C3, the code at the failing input: two watchers are registered on a running monitor
and the subscriber of the first has closed its channel.  `notify` recovers from the panic
of the send on channel 0 and logs it, and the loop is over: channel 1, open and empty, is
never visited and holds no message afterwards. -/
theorem C3_notify_abandons_watchers_after_closed :
    Reachable closedFirst ∧ closedFirst.m.running = true ∧
    closedFirst.m.watchers = [0, 1] ∧ isClosed closedFirst 0 ∧
    closedFirst.chans[1]? = some { buf := [], cap := 128, closed := false } ∧
    (notify (Err.mk "vm gone") closedFirst).chans[1]? =
      some { buf := [], cap := 128, closed := false } ∧
    (notify (Err.mk "vm gone") closedFirst).trace = [Event.markDead, Event.warnClosed] :=
  ⟨Reachable.subscriberClose 0 (Reachable.newWatcher (Reachable.newWatcher Reachable.init)),
    rfl, rfl, ⟨{ buf := [], cap := 128, closed := true }, rfl, rfl⟩, rfl, rfl, rfl⟩

/-- C4, the code at the failing input: two watchers are registered on a running monitor
and the subscriber of the first has closed its channel.  `stop` completes, recovers from
the panic of `close` on channel 0 and logs it, empties the watcher list and clears
`running`; the loop never reached channel 1, which is left open. -/
theorem C4_stop_leaves_watchers_after_closed_open :
    Reachable closedFirst ∧ closedFirst.m.running = true ∧
    closedFirst.m.watchers = [0, 1] ∧ isClosed closedFirst 0 ∧ isOpen closedFirst 1 ∧
    ∃ w1, stop closedFirst = some w1 ∧ w1.m.watchers = [] ∧ w1.m.running = false ∧
      w1.chans[1]? = some { buf := [], cap := 128, closed := false } ∧
      w1.trace = [Event.warnClosed] :=
  ⟨Reachable.subscriberClose 0 (Reachable.newWatcher (Reachable.newWatcher Reachable.init)),
    rfl, rfl, ⟨{ buf := [], cap := 128, closed := true }, rfl, rfl⟩,
    ⟨{ buf := [], cap := 128, closed := false }, rfl, rfl⟩,
    ⟨_, rfl, rfl, rfl, rfl, rfl⟩⟩

/-- C5 as stated fails: on a monitor that was never started, whose agent is alive,
`notify` marks the agent dead. -/
theorem C5_notify_not_running_marks_agent_dead :
    newWorld.m.running = false ∧ newWorld.agentDead = false ∧
    (notify (Err.mk "late callback") newWorld).agentDead = true ∧
    notify (Err.mk "late callback") newWorld ≠ newWorld := by
  refine ⟨rfl, rfl, rfl, ?_⟩
  intro h
  have := congrArg World.agentDead h
  exact absurd this (by decide)

/-- C5, amended: when the monitor is not running, `notify err` does nothing but call the
agent's `markDead`: the monitor struct (watcher list, running flag) and every channel are
unchanged, nothing is logged, no panic is recovered, and the agent is dead afterwards. -/
theorem C5_notify_not_running_only_marks_dead (w : World) (err : Err)
    (hrun : w.m.running = false) :
    notify err w = markDead w ∧ (notify err w).m = w.m ∧ (notify err w).chans = w.chans ∧
    (notify err w).trace = w.trace ++ [Event.markDead] ∧ (notify err w).agentDead = true := by
  have h : notify err w = markDead w := by
    have hm : (markDead w).m.running = false := hrun
    unfold notify
    simp [hm]
  rw [h]
  exact ⟨rfl, rfl, rfl, rfl, rfl⟩

/-- Witness of the amended C5 on a monitor that was never started. -/
theorem C5_notify_not_running_only_marks_dead_witness :
    notify (Err.mk "late callback") newWorld = markDead newWorld ∧
    (notify (Err.mk "late callback") newWorld).m = newWorld.m ∧
    (notify (Err.mk "late callback") newWorld).chans = newWorld.chans ∧
    (notify (Err.mk "late callback") newWorld).trace = newWorld.trace ++ [Event.markDead] ∧
    (notify (Err.mk "late callback") newWorld).agentDead = true :=
  C5_notify_not_running_only_marks_dead newWorld (Err.mk "late callback") rfl

/-- C6: in every reachable state at most one watchdog goroutine is alive, exactly one when
`running` is set and none otherwise, and no stop signal is buffered.  `newWatcher` starts no
goroutine on a running monitor and exactly one on a stopped one.  `stop` completes and
leaves no goroutine, no buffered signal and `running` false; a `newWatcher` after it leaves
exactly one goroutine on a running monitor with no signal to receive, so that waiting for
that goroutine to exit would never return. -/
theorem C6_at_most_one_watchdog (w : World) (hr : Reachable w) :
    w.m.wg ≤ 1 ∧ w.m.wg = (if w.m.running then 1 else 0) ∧ w.m.stopCh = 0 ∧
    (newWatcher w).2.m.wg = (if w.m.running then w.m.wg else w.m.wg + 1) ∧
    ∃ w1, stop w = some w1 ∧ w1.m.wg = 0 ∧ w1.m.stopCh = 0 ∧ w1.m.running = false ∧
      (newWatcher w1).2.m.wg = 1 ∧ (newWatcher w1).2.m.running = true ∧
      (newWatcher w1).2.m.stopCh = 0 ∧ wgWait (newWatcher w1).2 = none := by
  have hwf := hr.wf
  have ht := hwf.tasks
  have hs := hwf.nosig
  refine ⟨?_, ht, hs, ?_, ?_⟩
  · rw [ht]; split <;> omega
  · cases hrun : w.m.running <;> simp [newWatcher, hrun]
  · have key : ∀ w1 : World, WF w1 → w1.m.running = false →
        w1.m.wg = 0 ∧ w1.m.stopCh = 0 ∧ w1.m.running = false ∧
        (newWatcher w1).2.m.wg = 1 ∧ (newWatcher w1).2.m.running = true ∧
        (newWatcher w1).2.m.stopCh = 0 ∧ wgWait (newWatcher w1).2 = none := by
      intro w1 h1 hrun1
      have ht1 := h1.tasks
      have hs1 := h1.nosig
      rw [hrun1] at ht1
      simp only [Bool.false_eq_true, if_false] at ht1
      refine ⟨ht1, hs1, hrun1, ?_, ?_, ?_, ?_⟩ <;>
        simp [newWatcher, hrun1, ht1, hs1, wgWait, drain]
    cases hrun : w.m.running with
    | false => exact ⟨w, stop_not_running hwf hrun, key w hwf hrun⟩
    | true => exact ⟨stopped w, stop_running hwf hrun, key (stopped w) (WF_stopped hwf) rfl⟩

/-- Witness of C6 on a running monitor with two watchers. -/
theorem C6_at_most_one_watchdog_witness :
    twoWatchers.m.wg ≤ 1 ∧ twoWatchers.m.wg = (if twoWatchers.m.running then 1 else 0) ∧
    twoWatchers.m.stopCh = 0 ∧
    (newWatcher twoWatchers).2.m.wg =
      (if twoWatchers.m.running then twoWatchers.m.wg else twoWatchers.m.wg + 1) ∧
    ∃ w1, stop twoWatchers = some w1 ∧ w1.m.wg = 0 ∧ w1.m.stopCh = 0 ∧
      w1.m.running = false ∧
      (newWatcher w1).2.m.wg = 1 ∧ (newWatcher w1).2.m.running = true ∧
      (newWatcher w1).2.m.stopCh = 0 ∧ wgWait (newWatcher w1).2 = none :=
  C6_at_most_one_watchdog twoWatchers
    (Reachable.newWatcher (Reachable.newWatcher Reachable.init))

/-- C7: in every reachable state `newWatcher` returns a nil error and a channel that was
not allocated before, hence distinct from every registered watcher; the channel is open,
empty and of capacity 128; the watcher list is the old list followed by that channel; every
channel allocated before is as it was. -/
theorem C7_newWatcher_registers_fresh_channel (w : World) (hr : Reachable w) :
    (newWatcher w).1.2 = none ∧
    w.chans[(newWatcher w).1.1]? = none ∧
    (newWatcher w).1.1 ∉ w.m.watchers ∧
    (newWatcher w).2.chans[(newWatcher w).1.1]? =
      some { buf := [], cap := 128, closed := false } ∧
    (newWatcher w).2.m.watchers = w.m.watchers ++ [(newWatcher w).1.1] ∧
    (∀ c, c < w.chans.length → (newWatcher w).2.chans[c]? = w.chans[c]?) ∧
    (∀ c ∈ w.m.watchers, (newWatcher w).2.chans[c]? = w.chans[c]?) := by
  have hwf := hr.wf
  have hchans : (newWatcher w).2.chans = w.chans ++ [Chan.make watcherChannelSize] := by
    cases hrun : w.m.running <;> simp [newWatcher, hrun]
  have hold : ∀ c, c < w.chans.length → (newWatcher w).2.chans[c]? = w.chans[c]? := by
    intro c hc
    rw [hchans, List.getElem?_append_left hc]
  refine ⟨rfl, ?_, ?_, ?_, ?_, hold, fun c hc => hold c (hwf.valid c hc)⟩
  · show w.chans[w.chans.length]? = none
    exact List.getElem?_eq_none (Nat.le_refl _)
  · intro hmem
    exact Nat.lt_irrefl _ (hwf.valid _ hmem)
  · show (newWatcher w).2.chans[w.chans.length]? = _
    rw [hchans, List.getElem?_append_right (Nat.le_refl _)]
    simp [Chan.make, watcherChannelSize]
  · cases hrun : w.m.running <;> simp [newWatcher, hrun]

/-- Witness of C7 on a running monitor with two watchers. -/
theorem C7_newWatcher_registers_fresh_channel_witness :
    (newWatcher twoWatchers).1.2 = none ∧
    twoWatchers.chans[(newWatcher twoWatchers).1.1]? = none ∧
    (newWatcher twoWatchers).1.1 ∉ twoWatchers.m.watchers ∧
    (newWatcher twoWatchers).2.chans[(newWatcher twoWatchers).1.1]? =
      some { buf := [], cap := 128, closed := false } ∧
    (newWatcher twoWatchers).2.m.watchers =
      twoWatchers.m.watchers ++ [(newWatcher twoWatchers).1.1] ∧
    (∀ c, c < twoWatchers.chans.length →
      (newWatcher twoWatchers).2.chans[c]? = twoWatchers.chans[c]?) ∧
    (∀ c ∈ twoWatchers.m.watchers,
      (newWatcher twoWatchers).2.chans[c]? = twoWatchers.chans[c]?) :=
  C7_newWatcher_registers_fresh_channel twoWatchers
    (Reachable.newWatcher (Reachable.newWatcher Reachable.init))

/-- C8: in every reachable state, `stop` on a monitor that is not running returns and
leaves the whole state as it was (no stop signal buffered, no channel closed, nothing
logged); and `stop` always completes in a state on which a second `stop` changes nothing. -/
theorem C8_stop_on_stopped_is_noop (w : World) (hr : Reachable w) :
    (w.m.running = false → stop w = some w) ∧
    ∃ w1, stop w = some w1 ∧ stop w1 = some w1 ∧ (stop w).bind stop = stop w := by
  have hwf := hr.wf
  refine ⟨stop_not_running hwf, ?_⟩
  cases hrun : w.m.running with
  | false =>
    have h := stop_not_running hwf hrun
    exact ⟨w, h, h, by rw [h]; exact h⟩
  | true =>
    have h := stop_running hwf hrun
    have h1 : stop (stopped w) = some (stopped w) := stop_not_running (WF_stopped hwf) rfl
    exact ⟨stopped w, h, h1, by rw [h]; exact h1⟩

/-- Witness of C8 on a monitor that was never started. -/
theorem C8_stop_on_stopped_is_noop_witness :
    stop newWorld = some newWorld ∧
    ∃ w1, stop newWorld = some w1 ∧ stop w1 = some w1 ∧
      (stop newWorld).bind stop = stop newWorld :=
  ⟨(C8_stop_on_stopped_is_noop newWorld Reachable.init).1 rfl,
    (C8_stop_on_stopped_is_noop newWorld Reachable.init).2⟩

set_option maxRecDepth 100000 in
/-- C10 as stated fails: the only watcher of a running monitor is open and holds 127
messages, so it has room.  On a tick whose two checks fail it receives the hypervisor
error, which fills it, and the agent error is dropped: it does not receive both. -/
theorem C10_one_free_slot_gets_only_hypervisor_error :
    Reachable nearlyFull ∧ nearlyFull.m.running = true ∧ nearlyFull.m.watchers = [0] ∧
    nearlyFull.chans[0]? =
      some { buf := List.replicate 127 (Err.mk "old"), cap := 128, closed := false } ∧
    (tick (some (Err.mk "qemu exited")) (some (Err.mk "agent timeout")) nearlyFull).chans[0]? =
      some { buf := List.replicate 127 (Err.mk "old") ++
               [Wrapf (Err.mk "qemu exited") "failed to ping hypervisor process"],
             cap := 128, closed := false } ∧
    (tick (some (Err.mk "qemu exited")) (some (Err.mk "agent timeout")) nearlyFull).chans[0]? ≠
      some { buf := List.replicate 127 (Err.mk "old") ++
               [Wrapf (Err.mk "qemu exited") "failed to ping hypervisor process",
                Wrapf (Err.mk "agent timeout") "failed to ping agent"],
             cap := 128, closed := false } := by
  refine ⟨iterate_notify_reachable _ (Reachable.newWatcher Reachable.init) 127,
    by decide, by decide, by decide, by decide, by decide⟩

/-- C10, amended: on every tick the hypervisor check is called first and the agent check
second, whatever the first returned; `markDead`, which opens every `notify`, is called once
after each failing check and not after a succeeding one; a hypervisor failure is notified
wrapped as "failed to ping hypervisor process", an agent failure wrapped as "failed to ping
agent"; the monitor struct is unchanged, so the watchdog goroutine stays alive.  When the
monitor is reachable with a live watchdog and all its watchers are open, each watcher
buffer receives the notified errors in that order as far as it has room: both with two free
slots, only the first with one, none when full. -/
theorem C10_tick_checks_hypervisor_then_agent (w : World) (hres ares : Option Err) :
    (∃ t, (tick hres ares w).trace = w.trace ++ t ∧
      calls t = Event.hypervisorCheck ::
        ((if hres.isSome then [Event.markDead] else []) ++
          Event.agentCheck :: (if ares.isSome then [Event.markDead] else []))) ∧
    tick hres ares w =
      onFailure ares "failed to ping agent" (record Event.agentCheck
        (onFailure hres "failed to ping hypervisor process"
          (record Event.hypervisorCheck w))) ∧
    (tick hres ares w).m = w.m ∧
    (Reachable w → 0 < w.m.wg → (∀ c ∈ w.m.watchers, isOpen w c) →
      ∀ c ∈ w.m.watchers, ∃ ch ch1, w.chans[c]? = some ch ∧
        (tick hres ares w).chans[c]? = some ch1 ∧
        ch1.buf = ch.buf ++ (tickErrors hres ares).take (128 - ch.buf.length)) := by
  refine ⟨?_, ?_, ?_, ?_⟩
  · cases hres with
    | none =>
      cases ares with
      | none => exact ⟨[Event.hypervisorCheck, Event.agentCheck], by simp [tick, watchAgent,
          watchHypervisor, record], rfl⟩
      | some a =>
        obtain ⟨ws, h1, h2⟩ := notify_trace (Wrapf a "failed to ping agent")
          (record Event.agentCheck (record Event.hypervisorCheck w))
        refine ⟨Event.hypervisorCheck :: Event.agentCheck :: Event.markDead :: ws, ?_, ?_⟩
        · simp only [tick, watchAgent, watchHypervisor]
          rw [h1]; simp [record]
        · have : calls (Event.hypervisorCheck :: Event.agentCheck :: Event.markDead :: ws) =
              Event.hypervisorCheck :: Event.agentCheck :: Event.markDead :: calls ws := rfl
          rw [this, h2]; rfl
    | some h =>
      obtain ⟨ws, h1, h2⟩ := notify_trace (Wrapf h "failed to ping hypervisor process")
        (record Event.hypervisorCheck w)
      cases ares with
      | none =>
        refine ⟨Event.hypervisorCheck :: Event.markDead :: (ws ++ [Event.agentCheck]), ?_, ?_⟩
        · simp only [tick, watchAgent, watchHypervisor]
          simp only [record] at h1 ⊢
          rw [h1]; simp
        · have : calls (Event.hypervisorCheck :: Event.markDead :: (ws ++ [Event.agentCheck])) =
              Event.hypervisorCheck :: Event.markDead :: calls (ws ++ [Event.agentCheck]) := rfl
          rw [this, calls_append, h2]; rfl
      | some a =>
        obtain ⟨ws2, h3, h4⟩ := notify_trace (Wrapf a "failed to ping agent")
          (record Event.agentCheck (notify (Wrapf h "failed to ping hypervisor process")
            (record Event.hypervisorCheck w)))
        refine ⟨Event.hypervisorCheck :: Event.markDead ::
          (ws ++ Event.agentCheck :: Event.markDead :: ws2), ?_, ?_⟩
        · simp only [tick, watchAgent, watchHypervisor]
          rw [h3]
          simp only [record] at h1 ⊢
          rw [h1]; simp
        · have : calls (Event.hypervisorCheck :: Event.markDead ::
              (ws ++ Event.agentCheck :: Event.markDead :: ws2)) =
              Event.hypervisorCheck :: Event.markDead ::
                calls (ws ++ Event.agentCheck :: Event.markDead :: ws2) := rfl
          rw [this, calls_append, h2]
          have : calls (Event.agentCheck :: Event.markDead :: ws2) =
              Event.agentCheck :: Event.markDead :: calls ws2 := rfl
          rw [this, h4]; rfl
  · cases hres <;> cases ares <;> rfl
  · cases hres <;> cases ares <;>
      simp only [tick, watchAgent, watchHypervisor] <;>
      simp [(notify_frame _ _).1, record]
  · intro hr hwg hopen c hc
    have hwf := hr.wf
    have hrun : w.m.running = true := by
      have ht := hwf.tasks
      cases hrun : w.m.running with
      | true => rfl
      | false => rw [hrun] at ht; simp at ht; omega
    obtain ⟨ch, hch, _⟩ := hopen c hc
    obtain ⟨ch1, hch1, hbuf⟩ := tick_bufs hres ares hwf hrun hopen c hc ch hch
    exact ⟨ch, ch1, hch, hch1, hbuf⟩

/-- Witness of C10 on a monitor with two open, empty watchers and two failing checks: both
errors are delivered to both watchers, the hypervisor error first. -/
theorem C10_tick_checks_hypervisor_then_agent_witness :
    (∃ t, (tick (some (Err.mk "qemu exited")) (some (Err.mk "agent timeout"))
        twoWatchers).trace = twoWatchers.trace ++ t ∧
      calls t = Event.hypervisorCheck ::
        ((if (some (Err.mk "qemu exited")).isSome then [Event.markDead] else []) ++
          Event.agentCheck ::
            (if (some (Err.mk "agent timeout")).isSome then [Event.markDead] else []))) ∧
    tick (some (Err.mk "qemu exited")) (some (Err.mk "agent timeout")) twoWatchers =
      onFailure (some (Err.mk "agent timeout")) "failed to ping agent"
        (record Event.agentCheck
          (onFailure (some (Err.mk "qemu exited")) "failed to ping hypervisor process"
            (record Event.hypervisorCheck twoWatchers))) ∧
    (tick (some (Err.mk "qemu exited")) (some (Err.mk "agent timeout")) twoWatchers).m =
      twoWatchers.m ∧
    (∀ c ∈ twoWatchers.m.watchers, ∃ ch ch1, twoWatchers.chans[c]? = some ch ∧
      (tick (some (Err.mk "qemu exited")) (some (Err.mk "agent timeout"))
        twoWatchers).chans[c]? = some ch1 ∧
      ch1.buf = ch.buf ++
        (tickErrors (some (Err.mk "qemu exited")) (some (Err.mk "agent timeout"))).take
          (128 - ch.buf.length)) :=
  have h := C10_tick_checks_hypervisor_then_agent twoWatchers
    (some (Err.mk "qemu exited")) (some (Err.mk "agent timeout"))
  ⟨h.1, h.2.1, h.2.2.1,
    h.2.2.2 (Reachable.newWatcher (Reachable.newWatcher Reachable.init)) (by decide)
      twoWatchers_open⟩

/-! ## Claims about the bridges -/

theorem digitValue_digitChar : ∀ k, k < 10 → digitValue (Nat.digitChar k) = k := by
  decide

theorem readDecimal_toDigitsCore : ∀ (fuel n : Nat) (ds : List Char), n < fuel →
    readDecimal 0 (Nat.toDigitsCore 10 fuel n ds) = readDecimal n ds := by
  intro fuel
  induction fuel with
  | zero => intro n ds h; omega
  | succ fuel ih =>
    intro n ds h
    unfold Nat.toDigitsCore
    by_cases h0 : n / 10 = 0
    · have hn : n < 10 := by omega
      simp only [h0, if_true]
      show readDecimal (10 * 0 + digitValue (Nat.digitChar (n % 10))) ds = _
      rw [digitValue_digitChar _ (Nat.mod_lt _ (by decide))]
      congr 1
      omega
    · simp only [h0, if_false]
      rw [ih (n / 10) _ (by omega)]
      show readDecimal (10 * (n / 10) + digitValue (Nat.digitChar (n % 10))) ds = _
      rw [digitValue_digitChar _ (Nat.mod_lt _ (by decide))]
      congr 1
      omega

/-- `%d` prints distinct numbers differently. -/
theorem toString_nat_injective {a b : Nat} (h : toString a = toString b) : a = b := by
  have h1 : (Nat.toDigits 10 a) = (Nat.toDigits 10 b) := by
    have := congrArg String.data h
    exact this
  have ha := readDecimal_toDigitsCore (a + 1) a [] (Nat.lt_succ_self a)
  have hb := readDecimal_toDigitsCore (b + 1) b [] (Nat.lt_succ_self b)
  unfold Nat.toDigits at h1
  rw [h1] at ha
  rw [ha] at hb
  exact hb

theorem bridgeID_injective {bt : BridgeType} {a b : Nat}
    (h : bridgeID bt a = bridgeID bt b) : a = b := by
  apply toString_nat_injective
  have h1 := congrArg String.data h
  simp only [bridgeID, String.data_append] at h1
  exact String.ext (List.append_cancel_left h1)

/-- The registry `bridges` builds for a machine type that supports bridging. -/
theorem getBridges_bridges_of_supported (N : Nat) (mt : String)
    (h : supportsBridging mt = true) :
    getBridges (bridges N (newTestQemu mt)) = (List.range N).map (fun i =>
      { bridgeType := BridgeType.PCI, ID := bridgeID BridgeType.PCI i, Devices := some [] }) := by
  simp [getBridges, bridges, newTestQemu, newQemuArch, h]

theorem getBridges_bridges_of_unsupported (N : Nat) (mt : String)
    (h : supportsBridging mt = false) :
    getBridges (bridges N (newTestQemu mt)) = [] := by
  simp [getBridges, bridges, newTestQemu, newQemuArch, h]

/-- The properties C9 states of a registry: `N` bridges, the one at index `i` of type PCI
with id `pci-bridge-<i>` and a non-nil empty device map, no id used twice. -/
theorem allocated_registry (N : Nat) (bs : List Bridge)
    (h : bs = (List.range N).map (fun i =>
      { bridgeType := BridgeType.PCI, ID := bridgeID BridgeType.PCI i, Devices := some [] })) :
    bs.length = N ∧
    (∀ i, i < N → bs[i]? =
      some { bridgeType := BridgeType.PCI, ID := "pci-bridge-" ++ toString i,
             Devices := some [] }) ∧
    (bs.map Bridge.ID).Nodup := by
  subst h
  refine ⟨by simp, ?_, ?_⟩
  · intro i hi
    simp [hi, bridgeID, BridgeType.text]
  · rw [List.map_map]
    refine (List.nodup_range N).map ?_
    intro a b hab
    exact bridgeID_injective hab

/-- C9: for every `N`, `bridges(N)` then `getBridges()` on a fresh builder of machine type
pc, and likewise q35, yields exactly `N` bridges, the one at index `i` being of type PCI
with id `pci-bridge-<i>` and a non-nil empty device map, and no two with the same id; on a
builder of machine type microvm, of the combined type "q35pc", or of any type other than pc
and q35, it yields no bridge. -/
theorem C9_bridges_allocates_sequential_ids (N : Nat) :
    ((getBridges (bridges N (newTestQemu QemuPC))).length = N ∧
      (∀ i, i < N → (getBridges (bridges N (newTestQemu QemuPC)))[i]? =
        some { bridgeType := BridgeType.PCI, ID := "pci-bridge-" ++ toString i,
               Devices := some [] }) ∧
      ((getBridges (bridges N (newTestQemu QemuPC))).map Bridge.ID).Nodup) ∧
    ((getBridges (bridges N (newTestQemu QemuQ35))).length = N ∧
      (∀ i, i < N → (getBridges (bridges N (newTestQemu QemuQ35)))[i]? =
        some { bridgeType := BridgeType.PCI, ID := "pci-bridge-" ++ toString i,
               Devices := some [] }) ∧
      ((getBridges (bridges N (newTestQemu QemuQ35))).map Bridge.ID).Nodup) ∧
    getBridges (bridges N (newTestQemu QemuMicrovm)) = [] ∧
    getBridges (bridges N (newTestQemu (QemuQ35 ++ QemuPC))) = [] ∧
    (∀ mt, mt ≠ QemuPC → mt ≠ QemuQ35 → getBridges (bridges N (newTestQemu mt)) = []) := by
  refine ⟨?_, ?_, ?_, ?_, ?_⟩
  · exact allocated_registry N _ (getBridges_bridges_of_supported N QemuPC (by decide))
  · exact allocated_registry N _ (getBridges_bridges_of_supported N QemuQ35 (by decide))
  · exact getBridges_bridges_of_unsupported N QemuMicrovm (by decide)
  · exact getBridges_bridges_of_unsupported N (QemuQ35 ++ QemuPC) (by decide)
  · intro mt h1 h2
    apply getBridges_bridges_of_unsupported
    simp [supportsBridging, h1, h2]

/-- The test's case: five bridges on a pc builder. -/
theorem C9_bridges_allocates_sequential_ids_five :
    getBridges (bridges 5 (newTestQemu QemuPC)) =
      [ { bridgeType := BridgeType.PCI, ID := "pci-bridge-0", Devices := some [] },
        { bridgeType := BridgeType.PCI, ID := "pci-bridge-1", Devices := some [] },
        { bridgeType := BridgeType.PCI, ID := "pci-bridge-2", Devices := some [] },
        { bridgeType := BridgeType.PCI, ID := "pci-bridge-3", Devices := some [] },
        { bridgeType := BridgeType.PCI, ID := "pci-bridge-4", Devices := some [] } ] ∧
    getBridges (bridges 5 (newTestQemu "q35pc")) = [] := by
  have h := C9_bridges_allocates_sequential_ids 5
  exact ⟨by decide, h.2.2.2.1⟩

end Virtcontainers
